import Mathlib

/-!
# Verification of DLSyncBot core components

Shallow embedding of the DLSyncBot repository's core modules:
* `url_parser.py` — service classification of URLs,
* `queue_manager.py` — bounded FIFO download queue with a single worker,
* `file_server.py` — token-gated file distribution server.

Each definition mirrors the corresponding Python source construct.
-/

set_option maxRecDepth 4000

/-! ## url_parser.py -/

/-- `ServiceType` enum from `url_parser.py`. -/
inductive ServiceType
  | QOBUZ
  | YOUTUBE
  | SPOTIFY
  | UNKNOWN
deriving DecidableEq, Repr

/-- Python `str.strip` whitespace test (ASCII whitespace: space, tab,
newline, carriage return, vertical tab, form feed). -/
def isPySpace (c : Char) : Bool :=
  c = ' ' || c = '\t' || c = '\n' || c = '\r' || c.toNat = 11 || c.toNat = 12

/-- Python `str.strip()` on the character list of a string. -/
def pyStrip (s : List Char) : List Char :=
  ((s.dropWhile isPySpace).reverse.dropWhile isPySpace).reverse

/-- `lStartsWith s p` holds when `p` is a prefix of `s` (character lists). -/
def lStartsWith : List Char → List Char → Bool
  | _, [] => true
  | [], _ :: _ => false
  | a :: as, b :: bs => a == b && lStartsWith as bs

/-- ASCII lowercase of a character list (models `re.IGNORECASE` matching of
the all-ASCII patterns in `url_parser.py`). -/
def lowerL (s : List Char) : List Char :=
  s.map Char.toLower

namespace URLParser

/-- Expansion of the regex `https?://(?:www\.)?(?:play\.)?qobuz\.com/` and
`https?://open\.qobuz\.com/` (from `URLParser.PATTERNS[ServiceType.QOBUZ]`)
into the finite set of literal prefixes they denote: the regexes consist
only of literal characters, the optional `s`, and optional literal groups. -/
def qobuzPats : List String :=
  [ "http://qobuz.com/", "http://play.qobuz.com/",
    "http://www.qobuz.com/", "http://www.play.qobuz.com/",
    "https://qobuz.com/", "https://play.qobuz.com/",
    "https://www.qobuz.com/", "https://www.play.qobuz.com/",
    "http://open.qobuz.com/", "https://open.qobuz.com/" ]

/-- Expansion of the YouTube regexes in `URLParser.PATTERNS`:
`https?://(?:www\.)?youtube\.com/watch\?v=`,
`https?://(?:www\.)?youtube\.com/playlist\?list=`,
`https?://youtu\.be/`, `https?://(?:www\.)?youtube\.com/shorts/`,
`https?://music\.youtube\.com/`. -/
def youtubePats : List String :=
  [ "http://youtube.com/watch?v=", "http://www.youtube.com/watch?v=",
    "https://youtube.com/watch?v=", "https://www.youtube.com/watch?v=",
    "http://youtube.com/playlist?list=", "http://www.youtube.com/playlist?list=",
    "https://youtube.com/playlist?list=", "https://www.youtube.com/playlist?list=",
    "http://youtu.be/", "https://youtu.be/",
    "http://youtube.com/shorts/", "http://www.youtube.com/shorts/",
    "https://youtube.com/shorts/", "https://www.youtube.com/shorts/",
    "http://music.youtube.com/", "https://music.youtube.com/" ]

/-- Expansion of the Spotify regex `https?://open\.spotify\.com/`. -/
def spotifyPats : List String :=
  [ "http://open.spotify.com/", "https://open.spotify.com/" ]

/-- The `PATTERNS` dict of `URLParser`, in insertion order
QOBUZ, YOUTUBE, SPOTIFY. -/
def PATTERNS : ServiceType → List String
  | .QOBUZ => qobuzPats
  | .YOUTUBE => youtubePats
  | .SPOTIFY => spotifyPats
  | .UNKNOWN => []

/-- `re.match(pattern, url.strip(), re.IGNORECASE)` for one literal-prefix
pattern: the pattern matches iff it is a case-insensitive prefix of the
stripped url. -/
def patMatches (url : String) (p : String) : Bool :=
  lStartsWith (lowerL (pyStrip url.data)) (lowerL p.data)

/-- Whether any pattern of `svc` matches `url` (inner loop of
`URLParser.parse`). -/
def serviceMatches (svc : ServiceType) (url : String) : Bool :=
  (PATTERNS svc).any (patMatches url)

/-- `URLParser.parse`: strip the url, try each service's patterns in the
dict's insertion order, return the first service with a matching pattern,
else UNKNOWN. -/
def parse (url : String) : ServiceType :=
  if serviceMatches .QOBUZ url then .QOBUZ
  else if serviceMatches .YOUTUBE url then .YOUTUBE
  else if serviceMatches .SPOTIFY url then .SPOTIFY
  else .UNKNOWN

end URLParser

/-- `URLParser.get_service_name`. -/
def get_service_name : ServiceType → String
  | .QOBUZ => "Qobuz"
  | .YOUTUBE => "YouTube"
  | .SPOTIFY => "Spotify"
  | .UNKNOWN => "不明"

/-! ## queue_manager.py -/

/-- `TaskStatus` enum from `queue_manager.py`. -/
inductive TaskStatus
  | PENDING
  | RUNNING
  | COMPLETED
  | FAILED
deriving DecidableEq, Repr

/-- `DownloadResult` dataclass from `downloaders/base.py`
(paths modelled as strings). -/
structure DownloadResult where
  success : Bool
  message : String
  folder_path : Option String
  file_count : Nat
  error : Option String
deriving DecidableEq, Repr

/-- `DownloadTask` dataclass from `queue_manager.py`. The `uuid4` id is
modelled as a `Nat` drawn from a fresh-id supply; the `datetime` audit
fields (`created_at`, `started_at`, `completed_at`) carry no claim-relevant
information and are omitted. -/
structure DownloadTask where
  id : Nat
  url : String
  service : ServiceType
  requester_id : Nat
  channel_id : Nat
  status : TaskStatus
  result : Option DownloadResult
  message_id : Option Nat
deriving DecidableEq, Repr

/-- Mutable state of a `QueueManager` instance: the `asyncio.Queue`
contents (front of the list = next item `get` returns), `_pending_tasks`,
`_current_task`, `_history`, and the fresh-id supply standing in for
`uuid4`. -/
structure QueueManager where
  queue : List DownloadTask
  pending_tasks : List DownloadTask
  current_task : Option DownloadTask
  history : List DownloadTask
  next_id : Nat
deriving Repr

/-- A fresh `QueueManager` (constructor state). -/
def initQM : QueueManager :=
  { queue := [], pending_tasks := [], current_task := none,
    history := [], next_id := 0 }

/-- `asyncio.Queue.full()`: with `maxsize <= 0` the queue is never full,
otherwise full iff `qsize() >= maxsize`. -/
def queueFull (maxsize : Nat) (q : List DownloadTask) : Bool :=
  if maxsize = 0 then false else q.length ≥ maxsize

/-- The queue-full failure message of `QueueManager.add_task`. -/
def queueFullMsg : String := "キューが満杯です。しばらく待ってから再試行してください"

/-- The unsupported-URL failure message of `QueueManager.add_task`. -/
def unsupportedMsg : String := "対応していないURLです"

/-- `QueueManager.add_task`: classify the url; fail without touching state
on UNKNOWN service or full queue; otherwise construct a PENDING task,
append it to `_pending_tasks` and put it on the queue, and report the
service name and queue position. -/
def add_task (maxsize : Nat) (s : QueueManager) (url : String)
    (requester_id channel_id : Nat) (message_id : Option Nat) :
    (Bool × String × Option DownloadTask) × QueueManager :=
  let service := URLParser.parse url
  if service = ServiceType.UNKNOWN then
    ((false, unsupportedMsg, none), s)
  else if queueFull maxsize s.queue then
    ((false, queueFullMsg, none), s)
  else
    let task : DownloadTask :=
      { id := s.next_id, url := url, service := service,
        requester_id := requester_id, channel_id := channel_id,
        status := TaskStatus.PENDING, result := none,
        message_id := message_id }
    let queue' := s.queue ++ [task]
    let s' : QueueManager :=
      { s with pending_tasks := s.pending_tasks ++ [task],
               queue := queue', next_id := s.next_id + 1 }
    ((true,
      "キューに追加しました（" ++ get_service_name service ++ "、順番: "
        ++ toString queue'.length ++ "）",
      some task), s')

/-- Outcome of one `downloader.download(url)` invocation as observed at
the worker's `try` boundary: either a returned `DownloadResult` or a
raised exception with text `str(e)`. -/
inductive AdapterOutcome
  | ret (r : DownloadResult)
  | exn (msg : String)
deriving DecidableEq, Repr

/-- Membership in the `_downloaders` registry built in
`QueueManager.__init__`: QOBUZ, YOUTUBE and SPOTIFY have downloaders,
UNKNOWN has none. -/
def hasDownloader : ServiceType → Bool
  | .UNKNOWN => false
  | _ => true

/-- The worker's task-completion code (`try`/`except` body of
`QueueManager._worker`): on a returned result, record it and set COMPLETED
or FAILED by its success flag; on a missing downloader, record a failure
result; on a raised exception, record a failure result carrying the
exception text, status FAILED. -/
def workerFinish (task : DownloadTask) (outcome : AdapterOutcome) : DownloadTask :=
  if hasDownloader task.service then
    match outcome with
    | .ret r =>
        { task with result := some r,
                    status := if r.success then TaskStatus.COMPLETED
                              else TaskStatus.FAILED }
    | .exn e =>
        { task with result := some ⟨false, "エラーが発生しました", none, 0, some e⟩,
                    status := TaskStatus.FAILED }
  else
    { task with result := some ⟨false, "対応するダウンローダーがありません", none, 0, none⟩,
                status := TaskStatus.FAILED }

/-- One small-step transition of the queue system: a concurrent `add_task`
call, the worker dequeuing a task and marking it RUNNING (only possible
when the single worker is idle, i.e. `_current_task` is `None` — cf. the
`start_worker` guard that creates at most one worker), or the worker
finishing the current task. The suspension points of `_worker` (queue
`get`, progress callbacks, the adapter await) separate these steps; the
field assignments between suspension points are atomic. -/
inductive QStep (maxsize : Nat) : QueueManager → QueueManager → Prop
  | submit (s : QueueManager) (url : String) (rid cid : Nat) (mid : Option Nat) :
      QStep maxsize s (add_task maxsize s url rid cid mid).2
  | pick (s : QueueManager) (task : DownloadTask) (rest : List DownloadTask) :
      s.queue = task :: rest →
      s.current_task = none →
      QStep maxsize s
        { s with queue := rest,
                 pending_tasks := s.pending_tasks.erase task,
                 current_task := some { task with status := TaskStatus.RUNNING } }
  | finish (s : QueueManager) (t : DownloadTask) (outcome : AdapterOutcome) :
      s.current_task = some t →
      QStep maxsize s
        { s with current_task := none,
                 history := s.history ++ [workerFinish t outcome] }

/-- States reachable from a fresh `QueueManager` by system steps. -/
inductive Reachable (maxsize : Nat) : QueueManager → Prop
  | init : Reachable maxsize initQM
  | step (s s' : QueueManager) :
      Reachable maxsize s → QStep maxsize s s' → Reachable maxsize s'

/-- Every task object held anywhere in the queue system's state. -/
def allTasks (s : QueueManager) : List DownloadTask :=
  s.queue ++ s.pending_tasks ++ s.current_task.toList ++ s.history

/-- The number of tasks in the whole state with status RUNNING. -/
def runningCount (s : QueueManager) : Nat :=
  (allTasks s).countP (fun t => t.status = TaskStatus.RUNNING)

/-- Inductive invariant of the queue system. -/
structure QMInv (s : QueueManager) : Prop where
  queue_pending : ∀ t ∈ s.queue, t.status = TaskStatus.PENDING ∧ t.result = none
  pending_pending : ∀ t ∈ s.pending_tasks, t.status = TaskStatus.PENDING ∧ t.result = none
  current_running : ∀ t, s.current_task = some t →
    t.status = TaskStatus.RUNNING ∧ t.result = none
  history_done : ∀ t ∈ s.history,
    (t.status = TaskStatus.COMPLETED ∨ t.status = TaskStatus.FAILED) ∧ t.result.isSome

/-- The worker loop of `QueueManager._worker`, run for one adapter outcome
per iteration: pop the queue head, drop it from the pending list, mark it
RUNNING, complete it via `workerFinish`, clear `_current_task` and append
it to `_history`; stop when the queue is empty (the real loop would block
on `get`) or the outcome list is spent. -/
def workerRun : List AdapterOutcome → QueueManager → QueueManager
  | [], s => s
  | o :: os, s =>
    match s.queue with
    | [] => s
    | task :: rest =>
        workerRun os
          { queue := rest,
            pending_tasks := s.pending_tasks.erase task,
            current_task := none,
            history := s.history ++
              [workerFinish { task with status := TaskStatus.RUNNING } o],
            next_id := s.next_id }

/-! ## file_server.py -/

/-- `DownloadToken` dataclass from `file_server.py`: `datetime` instants
are modelled as naturals, paths as strings. The fields `created_at`,
`channel_id` and `message_id` carry no claim-relevant information and are
omitted; the per-token `asyncio.Lock` is represented by serializing the
redemption critical sections. -/
structure DownloadToken where
  token : String
  file_path : String
  file_name : String
  expires_at : Nat
  max_downloads : Nat
  download_count : Nat
deriving DecidableEq, Repr

/-- `DownloadToken.is_expired`: `datetime.now() > self.expires_at`. -/
def is_expired (now : Nat) (t : DownloadToken) : Bool :=
  now > t.expires_at

/-- `DownloadToken.is_exhausted`: `download_count >= max_downloads`. -/
def is_exhausted (t : DownloadToken) : Bool :=
  t.download_count ≥ t.max_downloads

/-- `DownloadToken.is_valid`: not expired and not exhausted. -/
def is_valid (now : Nat) (t : DownloadToken) : Bool :=
  !is_expired now t && !is_exhausted t

/-- `DownloadToken.remaining_downloads`:
`max(0, self.max_downloads - self.download_count)` over Python ints. -/
def remaining_downloads (t : DownloadToken) : Int :=
  max 0 ((t.max_downloads : Int) - (t.download_count : Int))

/-- File-server state: the `_tokens` dict (as an association list) and the
set of files on disk. -/
structure FSState where
  tokens : List (String × DownloadToken)
  files : List String
deriving DecidableEq, Repr

/-- `self._tokens.get(token_id)`. -/
def lookupToken (s : FSState) (tid : String) : Option DownloadToken :=
  (s.tokens.find? (fun p => p.1 == tid)).map Prod.snd

/-- `path.exists()` for the modelled disk. -/
def fileOnDisk (s : FSState) (p : String) : Bool :=
  s.files.contains p

/-- `FileServer.create_download_link` with the fresh `uuid4` id supplied
as `token_id`: registers a token with `download_count = 0`. -/
def create_download_link (s : FSState) (token_id file_path file_name : String)
    (expires_at max_downloads : Nat) : FSState :=
  { s with tokens := s.tokens ++
      [(token_id,
        { token := token_id, file_path := file_path, file_name := file_name,
          expires_at := expires_at, max_downloads := max_downloads,
          download_count := 0 })] }

/-- `FileServer.invalidate_token`: pop the token from `_tokens`; when one
was present, unlink its backing file; report whether a token was removed. -/
def invalidate_token (s : FSState) (tid : String) : Bool × FSState :=
  match lookupToken s tid with
  | none => (false, s)
  | some t =>
      (true,
        { tokens := s.tokens.filter (fun p => p.1 ≠ tid),
          files := s.files.filter (fun q => q ≠ t.file_path) })

/-- Response of `FileServer._handle_download`: a `FileResponse` (the 200
path, with the `X-Downloads-Remaining` value) or a plain status/text
response. -/
inductive DlResp
  | file (file_name : String) (remaining : Int)
  | err (status : Nat) (text : String)
deriving DecidableEq, Repr

/-- `FileServer._handle_download` for a request with a nonempty token id:
look up the token (404 when absent), then, under the per-token lock:
expired → invalidate, 410; exhausted → invalidate, 410; backing file
missing → invalidate, 404; otherwise increment the redemption count and
serve the file with the remaining count. -/
def handle_download (now : Nat) (s : FSState) (tid : String) : DlResp × FSState :=
  match lookupToken s tid with
  | none => (.err 404 "Download link not found", s)
  | some t =>
      if is_expired now t then
        (.err 410 "Download link has expired", (invalidate_token s tid).2)
      else if is_exhausted t then
        (.err 410 "Download limit reached", (invalidate_token s tid).2)
      else if !(fileOnDisk s t.file_path) then
        (.err 404 "File not found", (invalidate_token s tid).2)
      else
        let t' := { t with download_count := t.download_count + 1 }
        (.file t.file_name (remaining_downloads t'),
          { s with tokens :=
              s.tokens.map (fun p => if p.1 = tid then (p.1, t') else p) })

/-- Response of `FileServer._handle_info`. -/
inductive InfoResp
  | invalid (reason : String)
  | valid (file_name : String) (remaining : Int) (expires_at : Nat)
deriving DecidableEq, Repr

/-- `FileServer._handle_info` for a request with a nonempty token id. -/
def handle_info (now : Nat) (s : FSState) (tid : String) : InfoResp :=
  match lookupToken s tid with
  | none => .invalid "not_found"
  | some t =>
      if !(is_valid now t) then
        .invalid (if is_expired now t then "expired" else "exhausted")
      else
        .valid t.file_name (remaining_downloads t) t.expires_at

/-- State shared by N concurrent `/download/{token}` handlers that have
all executed `self._tokens.get(token_id)` (obtaining the same shared
`DownloadToken` object) before any of them entered `token.lock`: the
shared object, whether the id is still registered in `_tokens`, and
whether the backing file is on disk. -/
structure TokenRace where
  tok : DownloadToken
  inMap : Bool
  onDisk : Bool
deriving DecidableEq, Repr

/-- `invalidate_token` as observed through the shared token object: the
`pop` succeeds only while the id is registered, and only then is the
backing file unlinked. -/
def invalidateShared (s : TokenRace) : TokenRace :=
  if s.inMap then { s with inMap := false, onDisk := false } else s

/-- The `async with token.lock` block of `_handle_download` executed by
one request holding the shared token object; yields the HTTP status. -/
def downloadCritical (now : Nat) (s : TokenRace) : Nat × TokenRace :=
  if is_expired now s.tok then (410, invalidateShared s)
  else if is_exhausted s.tok then (410, invalidateShared s)
  else if !s.onDisk then (404, invalidateShared s)
  else (200, { s with tok :=
    { s.tok with download_count := s.tok.download_count + 1 } })

/-- N critical sections run back to back — the serialization the per-token
lock imposes on N concurrent redemptions; returns the response statuses in
order. -/
def runDownloads (now : Nat) : Nat → TokenRace → List Nat × TokenRace
  | 0, s => ([], s)
  | n + 1, s =>
      let (st, s') := downloadCritical now s
      let (rest, s'') := runDownloads now n s'
      (st :: rest, s'')

/-! ## Upload endpoint of file_server.py -/

/-- The three places `_is_upload_authorized` reads the caller token from
(absent values are the empty string, as with `.get(..., "")`). -/
structure AuthInputs where
  authHeader : String
  xUploadToken : String
  queryToken : String
deriving DecidableEq, Repr

/-- The caller-token precedence of `_is_upload_authorized`: the bearer
`Authorization` header value when its (case-insensitive) scheme is
`bearer` and the remainder strips to something nonempty, else the stripped
`X-Upload-Token` header when nonempty, else the stripped `token` query
parameter. -/
def extractUploadToken (r : AuthInputs) : List Char :=
  let fromBearer :=
    if lStartsWith (lowerL r.authHeader.data) "bearer ".data then
      pyStrip (r.authHeader.data.drop 7)
    else []
  if !fromBearer.isEmpty then fromBearer
  else
    let x := pyStrip r.xUploadToken.data
    if !x.isEmpty then x
    else pyStrip r.queryToken.data

/-- `FileServer._is_upload_authorized`: `cfgToken` is `Config.UPLOAD_TOKEN`
(`none` models a non-string value). A missing or blank secret authorizes
every request; otherwise the extracted caller token is compared by
`secrets.compare_digest` (equality) against the stripped secret. -/
def is_upload_authorized (cfgToken : Option String) (r : AuthInputs) : Bool :=
  match cfgToken with
  | none => true
  | some raw =>
      let required := pyStrip raw.data
      if required.isEmpty then true
      else extractUploadToken r == required

/-- Python `str.split("/")` on a character list. -/
def splitSlash : List Char → List (List Char)
  | [] => [[]]
  | c :: rest =>
      match splitSlash rest with
      | [] => [[]]
      | cur :: parts =>
          if c = '/' then [] :: cur :: parts
          else (c :: cur) :: parts

/-- `PurePosixPath(name).name` (Linux `pathlib.Path`): the last path
component, after dropping empty and `.` components. -/
def posixName (s : String) : String :=
  let parts := (splitSlash s.data).filter
    (fun p => !p.isEmpty && !(p == ['.']))
  match parts.getLast? with
  | some p => ⟨p⟩
  | none => ""

/-- The filename sanitization of `_handle_upload` (rejecting `.`/`..`,
path separators, NUL bytes and colons). -/
def invalidUploadName (n : String) : Bool :=
  n == "" || n == "." || n == ".." || n.data.contains '/' ||
    n.data.contains '\\' || n.data.contains (Char.ofNat 0) || n.data.contains ':'

/-- The chunk-writing loop of `_handle_upload`: a zero-size chunk ends the
stream; returns the total size on success, or `none` when the streamed
size exceeded `maxSize` (the `HTTPRequestEntityTooLarge` fault raised
mid-stream). -/
def streamChunks (maxSize : Nat) : List Nat → Nat → Option Nat
  | [], size => some size
  | c :: rest, size =>
      if c = 0 then some size
      else
        let size' := size + c
        if size' > maxSize then none
        else streamChunks maxSize rest size'

/-- An upload request: authorization inputs, whether the content type
starts with `multipart/`, the declared content length, the `file` part's
client-supplied filename (when a `file` part exists), and the sizes of the
streamed chunks. -/
structure UploadRequest where
  auth : AuthInputs
  contentTypeMultipart : Bool
  contentLength : Option Nat
  fieldFilename : Option String
  chunks : List Nat
deriving DecidableEq, Repr

/-- Response of `FileServer._handle_upload`. -/
inductive UploadResp
  | ok (file_name stored_name : String) (size : Nat)
  | err (status : Nat)
deriving DecidableEq, Repr

/-- `FileServer._handle_upload`: authorization (401), multipart check
(415), declared-content-length check (413), `file`-part and filename
checks (400), then the streamed write — the target file is created, and
the `finally` block unlinks it again when the stream exceeded the limit
(413). The generated stored path `uuid4_name` is supplied as `storedName`;
`files` is the set of paths on disk under the upload directory. -/
def handle_upload (cfgToken : Option String) (maxSize : Nat)
    (req : UploadRequest) (storedName : String) (files : List String) :
    UploadResp × List String :=
  if !(is_upload_authorized cfgToken req.auth) then (.err 401, files)
  else if !req.contentTypeMultipart then (.err 415, files)
  else if (match req.contentLength with
           | some l => decide (l > maxSize)
           | none => false) then (.err 413, files)
  else
    match req.fieldFilename with
    | none => (.err 400, files)
    | some fn =>
        if fn = "" then (.err 400, files)
        else
          let original := if posixName fn = "" then "upload" else posixName fn
          if invalidUploadName original then (.err 400, files)
          else
            match streamChunks maxSize req.chunks 0 with
            | some size => (.ok original storedName size, files ++ [storedName])
            | none =>
                (.err 413, (files ++ [storedName]).filter (fun q => q ≠ storedName))

/-! ## Theorems for the queue component -/

example : URLParser.parse "https://youtu.be/abc123" = .YOUTUBE := by decide
example : URLParser.parse "  HTTPS://Open.Spotify.com/track/x " = .SPOTIFY := by decide
example : URLParser.parse "https://example.com/" = .UNKNOWN := by decide
example : URLParser.parse "http://WWW.PLAY.QOBUZ.COM/album/1" = .QOBUZ := by decide

theorem workerFinish_done (t : DownloadTask) (o : AdapterOutcome) :
    ((workerFinish t o).status = TaskStatus.COMPLETED ∨
      (workerFinish t o).status = TaskStatus.FAILED)
    ∧ (workerFinish t o).result.isSome := by
  unfold workerFinish
  cases hasDownloader t.service
  · simp
  · cases o with
    | ret r =>
        cases hr : r.success <;> simp [hr]
    | exn e => simp

theorem QMInv_init : QMInv initQM := by
  constructor <;> simp [initQM]

theorem QMInv_step (maxsize : Nat) (s s' : QueueManager)
    (hinv : QMInv s) (hstep : QStep maxsize s s') : QMInv s' := by
  cases hstep with
  | submit url rid cid mid =>
      unfold add_task
      dsimp only
      split
      · exact hinv
      · split
        · exact hinv
        · constructor
          · intro t ht
            simp only [List.mem_append, List.mem_singleton] at ht
            rcases ht with ht | ht
            · exact hinv.queue_pending t ht
            · subst ht; exact ⟨rfl, rfl⟩
          · intro t ht
            simp only [List.mem_append, List.mem_singleton] at ht
            rcases ht with ht | ht
            · exact hinv.pending_pending t ht
            · subst ht; exact ⟨rfl, rfl⟩
          · intro t ht
            exact hinv.current_running t ht
          · intro t ht
            exact hinv.history_done t ht
  | pick task rest hq hc =>
      have htask := hinv.queue_pending task (by rw [hq]; exact List.mem_cons_self _ _)
      constructor
      · intro t ht
        exact hinv.queue_pending t (by rw [hq]; exact List.mem_cons_of_mem _ ht)
      · intro t ht
        exact hinv.pending_pending t (List.mem_of_mem_erase ht)
      · intro t ht
        simp only [Option.some.injEq] at ht
        subst ht
        exact ⟨rfl, htask.2⟩
      · intro t ht
        exact hinv.history_done t ht
  | finish t outcome hc =>
      constructor
      · intro u hu; exact hinv.queue_pending u hu
      · intro u hu; exact hinv.pending_pending u hu
      · intro u hu; simp at hu
      · intro u hu
        simp only [List.mem_append, List.mem_singleton] at hu
        rcases hu with hu | hu
        · exact hinv.history_done u hu
        · subst hu; exact workerFinish_done t outcome

theorem QMInv_reachable (maxsize : Nat) (s : QueueManager)
    (h : Reachable maxsize s) : QMInv s := by
  induction h with
  | init => exact QMInv_init
  | step s s' _ hstep ih => exact QMInv_step maxsize s s' ih hstep

theorem workerRun_processes_all (os : List AdapterOutcome) (s : QueueManager)
    (hlen : os.length = s.queue.length) :
    (workerRun os s).queue = []
    ∧ (workerRun os s).history = s.history ++
        List.zipWith
          (fun task o => workerFinish { task with status := TaskStatus.RUNNING } o)
          s.queue os := by
  induction os generalizing s with
  | nil =>
      have hq : s.queue = [] := by
        cases hq : s.queue with
        | nil => rfl
        | cons a l => rw [hq] at hlen; simp at hlen
      simp [workerRun, hq]
  | cons o os ih =>
      cases hq : s.queue with
      | nil => rw [hq] at hlen; simp at hlen
      | cons task rest =>
          rw [hq] at hlen
          simp only [List.length_cons, Nat.succ.injEq] at hlen
          have := ih
            { queue := rest,
              pending_tasks := s.pending_tasks.erase task,
              current_task := none,
              history := s.history ++
                [workerFinish { task with status := TaskStatus.RUNNING } o],
              next_id := s.next_id } hlen
          refine ⟨?_, ?_⟩
          · rw [workerRun, hq]
            exact this.1
          · rw [workerRun, hq, this.2]
            simp

/-! ### Claim theorems for the queue component -/

/-- C3: in every reachable state of the queue system, at most one task in
the whole state (queue, pending list, current task, history) has status
RUNNING: the worker is a single consumer, and a task is marked RUNNING
only when the worker is idle, i.e. the previously running task has already
reached COMPLETED or FAILED. -/
theorem at_most_one_running (maxsize : Nat) (s : QueueManager)
    (h : Reachable maxsize s) : runningCount s ≤ 1 := by
  have hinv := QMInv_reachable maxsize s h
  unfold runningCount allTasks
  rw [List.countP_append, List.countP_append, List.countP_append]
  have hq : s.queue.countP (fun t => decide (t.status = TaskStatus.RUNNING)) = 0 := by
    rw [List.countP_eq_zero]
    intro t ht
    have h1 := (hinv.queue_pending t ht).1
    simp [h1]
  have hp : s.pending_tasks.countP (fun t => decide (t.status = TaskStatus.RUNNING)) = 0 := by
    rw [List.countP_eq_zero]
    intro t ht
    have h1 := (hinv.pending_pending t ht).1
    simp [h1]
  have hh : s.history.countP (fun t => decide (t.status = TaskStatus.RUNNING)) = 0 := by
    rw [List.countP_eq_zero]
    intro t ht
    rcases (hinv.history_done t ht).1 with h1 | h1 <;> simp [h1]
  have hc : s.current_task.toList.countP
      (fun t => decide (t.status = TaskStatus.RUNNING)) ≤ 1 := by
    refine le_trans (List.countP_le_length _) ?_
    cases s.current_task <;> simp
  omega

/-- Witness for the C3 theorem: the state after one concrete submission is
reachable and satisfies the bound. -/
theorem at_most_one_running_witness :
    runningCount (add_task 100 initQM "https://youtu.be/abc" 1 2 none).2 ≤ 1 :=
  at_most_one_running 100 _
    (Reachable.step _ _ Reachable.init
      (QStep.submit initQM "https://youtu.be/abc" 1 2 none))

/-- C6: in every reachable state of the queue system, every task anywhere
in the state has its result set if and only if its status is COMPLETED or
FAILED; in particular PENDING and RUNNING tasks have no result. -/
theorem result_iff_terminal (maxsize : Nat) (s : QueueManager)
    (h : Reachable maxsize s) :
    ∀ t ∈ allTasks s,
      t.result.isSome
        ↔ (t.status = TaskStatus.COMPLETED ∨ t.status = TaskStatus.FAILED) := by
  have hinv := QMInv_reachable maxsize s h
  intro t ht
  unfold allTasks at ht
  simp only [List.mem_append] at ht
  rcases ht with ((ht | ht) | ht) | ht
  · obtain ⟨h1, h2⟩ := hinv.queue_pending t ht
    simp [h1, h2]
  · obtain ⟨h1, h2⟩ := hinv.pending_pending t ht
    simp [h1, h2]
  · cases hcur : s.current_task with
    | none => rw [hcur] at ht; simp at ht
    | some u =>
        rw [hcur] at ht
        simp only [Option.toList_some, List.mem_singleton] at ht
        subst ht
        obtain ⟨h1, h2⟩ := hinv.current_running t hcur
        simp [h1, h2]
  · obtain ⟨h1, h2⟩ := hinv.history_done t ht
    exact ⟨fun _ => h1, fun _ => h2⟩

/-- Witness for the C6 theorem: the concrete task produced by one
submission, inside the reachable post-submission state. -/
theorem result_iff_terminal_witness :
    (⟨0, "https://youtu.be/abc", ServiceType.YOUTUBE, 1, 2,
        TaskStatus.PENDING, none, none⟩ : DownloadTask).result.isSome
      ↔ ((⟨0, "https://youtu.be/abc", ServiceType.YOUTUBE, 1, 2,
            TaskStatus.PENDING, none, none⟩ : DownloadTask).status = TaskStatus.COMPLETED
          ∨ (⟨0, "https://youtu.be/abc", ServiceType.YOUTUBE, 1, 2,
              TaskStatus.PENDING, none, none⟩ : DownloadTask).status = TaskStatus.FAILED) :=
  result_iff_terminal 100 _
    (Reachable.step _ _ Reachable.init
      (QStep.submit initQM "https://youtu.be/abc" 1 2 none))
    _ (by decide)

/-- C4: `add_task` on a URL classified UNKNOWN fails with the
unsupported-URL message and leaves the state untouched; `add_task` on a
supported URL while the bounded queue already holds `maxsize` tasks fails
with the queue-full message and leaves the state untouched — in both cases
no task is constructed or enqueued. -/
theorem add_task_rejects (maxsize : Nat) (s : QueueManager) (url : String)
    (rid cid : Nat) (mid : Option Nat) :
    (URLParser.parse url = ServiceType.UNKNOWN →
      add_task maxsize s url rid cid mid = ((false, unsupportedMsg, none), s))
    ∧ (URLParser.parse url ≠ ServiceType.UNKNOWN → 0 < maxsize →
        s.queue.length = maxsize →
        add_task maxsize s url rid cid mid = ((false, queueFullMsg, none), s)) := by
  constructor
  · intro hu
    simp [add_task, hu]
  · intro hu hm hl
    have hf : queueFull maxsize s.queue = true := by
      unfold queueFull
      rw [if_neg (by omega)]
      simp [hl]
    simp [add_task, hu, hf]

/-- Witness for the C4 theorem: a concrete full queue of capacity 1 and a
concrete unsupported URL. -/
theorem add_task_rejects_witness :
    (add_task 1 (add_task 1 initQM "https://youtu.be/a" 1 2 none).2
        "https://youtu.be/b" 3 4 none
      = ((false, queueFullMsg, none),
          (add_task 1 initQM "https://youtu.be/a" 1 2 none).2))
    ∧ add_task 1 initQM "ftp://example.com/x" 3 4 none
        = ((false, unsupportedMsg, none), initQM) :=
  ⟨(add_task_rejects 1 (add_task 1 initQM "https://youtu.be/a" 1 2 none).2
      "https://youtu.be/b" 3 4 none).2 (by decide) (by decide) (by decide),
   (add_task_rejects 1 initQM "ftp://example.com/x" 3 4 none).1 (by decide)⟩

/-- C5: an exception raised by the adapter invocation is caught at the
worker boundary and turned into status FAILED with a `DownloadResult`
whose error field carries the fault text; and the worker loop keeps
consuming the queue regardless of outcomes — given one adapter outcome per
queued task (exceptions included), every queued task ends up processed in
the history and the queue is drained. -/
theorem worker_survives_faults (os : List AdapterOutcome) (s : QueueManager)
    (t : DownloadTask) (e : String)
    (hlen : os.length = s.queue.length)
    (hd : hasDownloader t.service = true) :
    (workerFinish t (AdapterOutcome.exn e)).status = TaskStatus.FAILED
    ∧ (workerFinish t (AdapterOutcome.exn e)).result
        = some ⟨false, "エラーが発生しました", none, 0, some e⟩
    ∧ (workerRun os s).queue = []
    ∧ (workerRun os s).history = s.history ++
        List.zipWith
          (fun task o => workerFinish { task with status := TaskStatus.RUNNING } o)
          s.queue os := by
  obtain ⟨h1, h2⟩ := workerRun_processes_all os s hlen
  refine ⟨?_, ?_, h1, h2⟩
  · simp [workerFinish, hd]
  · simp [workerFinish, hd]

/-- Witness for the C5 theorem: a queue with one concrete task whose
adapter raises, exercised end to end. -/
theorem worker_survives_faults_witness :
    (workerFinish
        ⟨0, "https://youtu.be/abc", ServiceType.YOUTUBE, 1, 2,
          TaskStatus.PENDING, none, none⟩
        (AdapterOutcome.exn "boom")).status = TaskStatus.FAILED
    ∧ (workerFinish
        ⟨0, "https://youtu.be/abc", ServiceType.YOUTUBE, 1, 2,
          TaskStatus.PENDING, none, none⟩
        (AdapterOutcome.exn "boom")).result
        = some ⟨false, "エラーが発生しました", none, 0, some "boom"⟩
    ∧ (workerRun [AdapterOutcome.exn "boom"]
        (add_task 100 initQM "https://youtu.be/abc" 1 2 none).2).queue = []
    ∧ (workerRun [AdapterOutcome.exn "boom"]
        (add_task 100 initQM "https://youtu.be/abc" 1 2 none).2).history
        = (add_task 100 initQM "https://youtu.be/abc" 1 2 none).2.history ++
            List.zipWith
              (fun task o => workerFinish { task with status := TaskStatus.RUNNING } o)
              (add_task 100 initQM "https://youtu.be/abc" 1 2 none).2.queue
              [AdapterOutcome.exn "boom"] :=
  worker_survives_faults [AdapterOutcome.exn "boom"]
    (add_task 100 initQM "https://youtu.be/abc" 1 2 none).2
    ⟨0, "https://youtu.be/abc", ServiceType.YOUTUBE, 1, 2,
      TaskStatus.PENDING, none, none⟩
    "boom" (by decide) (by decide)

/-! ## Theorems for the file-distribution server -/

theorem invalidateShared_tok (s : TokenRace) : (invalidateShared s).tok = s.tok := by
  unfold invalidateShared
  split <;> rfl

theorem runDownloads_exhausted (now n : Nat) (s : TokenRace)
    (hexp : is_expired now s.tok = false) (hexh : is_exhausted s.tok = true) :
    (runDownloads now n s).1 = List.replicate n 410
    ∧ (runDownloads now n s).2.tok = s.tok := by
  induction n generalizing s with
  | zero => simp [runDownloads]
  | succ n ih =>
      have h1 : downloadCritical now s = (410, invalidateShared s) := by
        simp [downloadCritical, hexp, hexh]
      have h2 := ih (invalidateShared s)
        (by rw [invalidateShared_tok]; exact hexp)
        (by rw [invalidateShared_tok]; exact hexh)
      simp [runDownloads, h1, h2.1, h2.2, invalidateShared_tok, List.replicate_succ]

theorem runDownloads_statuses (now n : Nat) (s : TokenRace)
    (hexp : is_expired now s.tok = false)
    (hmap : s.inMap = true) (hdisk : s.onDisk = true) :
    (runDownloads now n s).1 =
      List.replicate (min n (s.tok.max_downloads - s.tok.download_count)) 200
        ++ List.replicate (n - (s.tok.max_downloads - s.tok.download_count)) 410 := by
  induction n generalizing s with
  | zero => simp [runDownloads]
  | succ n ih =>
      by_cases hexh : is_exhausted s.tok = true
      · have h0 : s.tok.max_downloads - s.tok.download_count = 0 := by
          simp [is_exhausted] at hexh
          omega
        rw [(runDownloads_exhausted now (n + 1) s hexp hexh).1, h0]
        simp
      · have hexh' : is_exhausted s.tok = false := by
          simpa using hexh
        have hlt : s.tok.download_count < s.tok.max_downloads := by
          simp [is_exhausted] at hexh'
          omega
        have h1 : downloadCritical now s =
            (200, { s with tok :=
              { s.tok with download_count := s.tok.download_count + 1 } }) := by
          simp [downloadCritical, hexp, hexh', hdisk]
        have h2 := ih
          { s with tok := { s.tok with download_count := s.tok.download_count + 1 } }
          (by simpa [is_expired] using hexp) hmap hdisk
        have hk : s.tok.max_downloads - s.tok.download_count
            = (s.tok.max_downloads - (s.tok.download_count + 1)) + 1 := by omega
        rw [hk]
        simp only [runDownloads, h1, h2, Nat.succ_min_succ, Nat.succ_sub_succ,
          List.replicate_succ, List.cons_append]

theorem downloadCritical_count (now : Nat) (s : TokenRace)
    (h : s.tok.download_count ≤ s.tok.max_downloads) :
    (downloadCritical now s).2.tok.download_count
        ≤ (downloadCritical now s).2.tok.max_downloads
    ∧ (downloadCritical now s).2.tok.max_downloads = s.tok.max_downloads := by
  unfold downloadCritical
  split
  · simp [invalidateShared_tok, h]
  · split
    · simp [invalidateShared_tok, h]
    · split
      · simp [invalidateShared_tok, h]
      · rename_i hexp hexh hdisk
        simp only [is_exhausted, decide_eq_true_eq] at hexh
        simp only []
        constructor
        · omega
        · trivial

theorem runDownloads_count_le (now m : Nat) (s : TokenRace)
    (h : s.tok.download_count ≤ s.tok.max_downloads) :
    (runDownloads now m s).2.tok.download_count
        ≤ (runDownloads now m s).2.tok.max_downloads
    ∧ (runDownloads now m s).2.tok.max_downloads = s.tok.max_downloads := by
  induction m generalizing s with
  | zero =>
      constructor
      · simpa [runDownloads] using h
      · simp [runDownloads]
  | succ m ih =>
      have hstep := downloadCritical_count now s h
      have := ih (downloadCritical now s).2 hstep.1
      refine ⟨?_, ?_⟩
      · simpa [runDownloads] using this.1
      · have h2 : (runDownloads now (m + 1) s).2 =
            (runDownloads now m (downloadCritical now s).2).2 := by
          simp [runDownloads]
        rw [h2, this.2, hstep.2]

/-- C1: N concurrent `GET /download/{token}` requests that all looked up a
token with remaining capacity `k = max_downloads - download_count < N`
before any entered the per-token lock are serialized by the lock into N
critical sections: exactly `k` of them are served the file (status 200),
every remaining request receives status 410, and at no intermediate point
does `download_count` exceed `max_downloads`. -/
theorem concurrent_redemptions_bounded (now n m : Nat) (s : TokenRace)
    (hexp : is_expired now s.tok = false)
    (hmap : s.inMap = true) (hdisk : s.onDisk = true)
    (hle : s.tok.download_count ≤ s.tok.max_downloads)
    (hcap : s.tok.max_downloads - s.tok.download_count < n) :
    (runDownloads now n s).1.count 200
        = s.tok.max_downloads - s.tok.download_count
    ∧ (runDownloads now n s).1.count 410
        = n - (s.tok.max_downloads - s.tok.download_count)
    ∧ (runDownloads now n s).1.length = n
    ∧ (runDownloads now m s).2.tok.download_count ≤ s.tok.max_downloads := by
  have hst := runDownloads_statuses now n s hexp hmap hdisk
  have hmin : min n (s.tok.max_downloads - s.tok.download_count)
      = s.tok.max_downloads - s.tok.download_count :=
    Nat.min_eq_right (Nat.le_of_lt hcap)
  refine ⟨?_, ?_, ?_, ?_⟩
  · rw [hst, hmin, List.count_append]
    simp [List.count_replicate]
  · rw [hst, hmin, List.count_append]
    simp [List.count_replicate]
  · rw [hst, hmin]
    simp only [List.length_append, List.length_replicate]
    omega
  · have hc := runDownloads_count_le now m s hle
    omega

/-- Witness for the C1 theorem: a token with capacity 1 left, hit by 3
concurrent requests — one 200, two 410, and the count stays within the
limit after 2 of the 3 sections. -/
theorem concurrent_redemptions_bounded_witness :
    (runDownloads 0 3 ⟨⟨"t", "f", "n", 100, 2, 1⟩, true, true⟩).1.count 200
        = (2 : Nat) - 1
    ∧ (runDownloads 0 3 ⟨⟨"t", "f", "n", 100, 2, 1⟩, true, true⟩).1.count 410
        = 3 - ((2 : Nat) - 1)
    ∧ (runDownloads 0 3 ⟨⟨"t", "f", "n", 100, 2, 1⟩, true, true⟩).1.length = 3
    ∧ (runDownloads 0 2 ⟨⟨"t", "f", "n", 100, 2, 1⟩, true, true⟩).2.tok.download_count
        ≤ 2 :=
  concurrent_redemptions_bounded 0 3 2 ⟨⟨"t", "f", "n", 100, 2, 1⟩, true, true⟩
    (by decide) (by decide) (by decide) (by decide) (by decide)

theorem find?_update (l : List (String × DownloadToken)) (tid : String)
    (t' : DownloadToken)
    (h : (l.find? (fun p => p.1 == tid)).isSome = true) :
    (l.map (fun p => if p.1 = tid then (p.1, t') else p)).find?
        (fun p => p.1 == tid) = some (tid, t') := by
  induction l with
  | nil => simp [List.find?] at h
  | cons a l ih =>
      by_cases ha : a.1 = tid
      · simp [List.find?, ha]
      · have hb : (a.1 == tid) = false := by simp [ha]
        simp only [List.find?, hb, List.map_cons, if_neg ha] at h ⊢
        exact ih h

/-- C7: a token's `remaining_downloads` is `max(0, max_downloads -
download_count)`; a 200 response from the download handler leaves the
stored token with its count incremented by one, reports a remaining count
exactly one below the pre-redemption value, and the remaining count never
goes below zero. -/
theorem remaining_downloads_per_redemption (now : Nat) (s : FSState)
    (tid : String) (t : DownloadToken) (fn : String) (r : Int) (s' : FSState)
    (hlook : lookupToken s tid = some t)
    (hres : handle_download now s tid = (DlResp.file fn r, s')) :
    remaining_downloads t
        = max 0 ((t.max_downloads : Int) - (t.download_count : Int))
    ∧ lookupToken s' tid = some { t with download_count := t.download_count + 1 }
    ∧ r = remaining_downloads { t with download_count := t.download_count + 1 }
    ∧ r = remaining_downloads t - 1
    ∧ 0 ≤ r := by
  unfold handle_download at hres
  rw [hlook] at hres
  by_cases h1 : is_expired now t = true
  · simp [h1] at hres
  by_cases h2 : is_exhausted t = true
  · simp [h1, h2] at hres
  by_cases h3 : fileOnDisk s t.file_path = true
  case neg => simp [h1, h2, h3] at hres
  simp only [h1, h2, h3, Bool.not_true, Bool.false_eq_true, if_false,
    Bool.not_false, if_true, Bool.true_eq_false, Prod.mk.injEq,
    DlResp.file.injEq] at hres
  obtain ⟨⟨hfn, hr⟩, hs'⟩ := hres
  have hlt : t.download_count < t.max_downloads := by
    simp [is_exhausted] at h2
    omega
  have hsome : (s.tokens.find? (fun p => p.1 == tid)).isSome = true := by
    unfold lookupToken at hlook
    cases hf : s.tokens.find? (fun p => p.1 == tid) with
    | none => rw [hf] at hlook; simp at hlook
    | some p => rfl
  refine ⟨rfl, ?_, ?_, ?_, ?_⟩
  · rw [← hs']
    unfold lookupToken
    rw [find?_update s.tokens tid _ hsome]
    rfl
  · exact hr.symm
  · rw [← hr]
    unfold remaining_downloads
    rw [max_eq_right (by push_cast; omega), max_eq_right (by omega)]
    push_cast
    omega
  · rw [← hr]
    exact le_max_left 0 _

/-- Witness for the C7 theorem: a freshly created token with 3 allowed
downloads redeemed once reports 2 remaining. -/
theorem remaining_downloads_per_redemption_witness :
    remaining_downloads (⟨"t1", "f", "n", 100, 3, 0⟩ : DownloadToken)
        = max 0 ((3 : Int) - (0 : Int))
    ∧ lookupToken
        (handle_download 0
          (create_download_link ⟨[], ["f"]⟩ "t1" "f" "n" 100 3) "t1").2 "t1"
        = some ⟨"t1", "f", "n", 100, 3, 1⟩
    ∧ (2 : Int) = remaining_downloads (⟨"t1", "f", "n", 100, 3, 1⟩ : DownloadToken)
    ∧ (2 : Int) = remaining_downloads (⟨"t1", "f", "n", 100, 3, 0⟩ : DownloadToken) - 1
    ∧ (0 : Int) ≤ 2 :=
  remaining_downloads_per_redemption 0
    (create_download_link ⟨[], ["f"]⟩ "t1" "f" "n" 100 3) "t1"
    ⟨"t1", "f", "n", 100, 3, 0⟩ "n" 2
    (handle_download 0 (create_download_link ⟨[], ["f"]⟩ "t1" "f" "n" 100 3) "t1").2
    (by decide) (by decide)

/-- C2 counterexample: a token created with `max_downloads = 1` and
redeemed once is invalid (exhausted) and still registered — yet its
backing file is still on disk, because deletion happens only at
invalidation (the 60-second delayed cleanup, the hourly sweep, a later
access, or an explicit `invalidate_token` call), not at the instant the
token becomes invalid. -/
theorem invalid_token_file_still_on_disk :
    lookupToken
        (handle_download 0
          (create_download_link ⟨[], ["f"]⟩ "t1" "f" "song.opus" 100 1) "t1").2
        "t1"
      = some ⟨"t1", "f", "song.opus", 100, 1, 1⟩
    ∧ is_valid 0 (⟨"t1", "f", "song.opus", 100, 1, 1⟩ : DownloadToken) = false
    ∧ fileOnDisk
        (handle_download 0
          (create_download_link ⟨[], ["f"]⟩ "t1" "f" "song.opus" 100 1) "t1").2
        "f"
      = true := by decide

/-- C2 as amended: once `invalidate_token` runs on a registered token
(explicitly, from the delayed cleanup, from the sweep, or from a download
access observing invalidity), the backing file is no longer on disk, the
token is gone from the active set, and `/info` reports `valid: false` with
reason `not_found`; before invalidation, an invalid token still registered
is reported `valid: false` with the reason matching the cause (`expired`
checked before `exhausted`). -/
theorem invalidation_deletes_and_info_reasons (now : Nat) (s : FSState)
    (tid : String) (t : DownloadToken)
    (hlook : lookupToken s tid = some t)
    (hinvalid : is_valid now t = false) :
    fileOnDisk (invalidate_token s tid).2 t.file_path = false
    ∧ lookupToken (invalidate_token s tid).2 tid = none
    ∧ handle_info now (invalidate_token s tid).2 tid = InfoResp.invalid "not_found"
    ∧ handle_info now s tid
        = InfoResp.invalid (if is_expired now t then "expired" else "exhausted") := by
  have hstate : (invalidate_token s tid).2 =
      { tokens := s.tokens.filter (fun p => p.1 ≠ tid),
        files := s.files.filter (fun q => q ≠ t.file_path) } := by
    unfold invalidate_token
    rw [hlook]
  have hfile : fileOnDisk (invalidate_token s tid).2 t.file_path = false := by
    rw [hstate]
    unfold fileOnDisk
    rw [List.contains_eq_any_beq, List.any_eq_false]
    intro x hx
    have hx2 := (List.mem_filter.mp hx).2
    simp only [decide_eq_true_eq] at hx2
    simp only [beq_iff_eq]
    exact fun h => hx2 h.symm
  have hgone : lookupToken (invalidate_token s tid).2 tid = none := by
    rw [hstate]
    unfold lookupToken
    rw [List.find?_eq_none.mpr]
    · rfl
    · intro p hp
      have := (List.mem_filter.mp hp).2
      simpa using this
  refine ⟨hfile, hgone, ?_, ?_⟩
  · unfold handle_info
    rw [hgone]
  · unfold handle_info
    rw [hlook]
    simp [hinvalid]

/-- Witness for the amended C2 theorem: explicitly invalidating the
exhausted token of the counterexample state deletes the file, empties the
map, makes `/info` answer `not_found`, and before invalidation `/info`
answered `exhausted`. -/
theorem invalidation_deletes_and_info_reasons_witness :
    fileOnDisk
        (invalidate_token
          (handle_download 0
            (create_download_link ⟨[], ["f"]⟩ "t1" "f" "song.opus" 100 1) "t1").2
          "t1").2 "f" = false
    ∧ lookupToken
        (invalidate_token
          (handle_download 0
            (create_download_link ⟨[], ["f"]⟩ "t1" "f" "song.opus" 100 1) "t1").2
          "t1").2 "t1" = none
    ∧ handle_info 0
        (invalidate_token
          (handle_download 0
            (create_download_link ⟨[], ["f"]⟩ "t1" "f" "song.opus" 100 1) "t1").2
          "t1").2 "t1" = InfoResp.invalid "not_found"
    ∧ handle_info 0
        (handle_download 0
          (create_download_link ⟨[], ["f"]⟩ "t1" "f" "song.opus" 100 1) "t1").2
        "t1"
        = InfoResp.invalid
            (if is_expired 0 (⟨"t1", "f", "song.opus", 100, 1, 1⟩ : DownloadToken)
             then "expired" else "exhausted") :=
  invalidation_deletes_and_info_reasons 0
    (handle_download 0
      (create_download_link ⟨[], ["f"]⟩ "t1" "f" "song.opus" 100 1) "t1").2
    "t1" ⟨"t1", "f", "song.opus", 100, 1, 1⟩ (by decide) (by decide)

theorem streamChunks_exceeds (maxSize : Nat) (chunks : List Nat) (size : Nat)
    (hz : 0 ∉ chunks) (hsz : size ≤ maxSize) (hbig : size + chunks.sum > maxSize) :
    streamChunks maxSize chunks size = none := by
  induction chunks generalizing size with
  | nil =>
      simp only [List.sum_nil, Nat.add_zero] at hbig
      exact absurd hbig (by omega)
  | cons c rest ih =>
      have hc : c ≠ 0 := fun h => hz (h ▸ List.mem_cons_self c rest)
      unfold streamChunks
      rw [if_neg hc]
      by_cases hov : size + c > maxSize
      · rw [if_pos hov]
      · rw [if_neg hov]
        refine ih (size + c) (fun h => hz (List.mem_cons_of_mem c h)) (by omega) ?_
        simp only [List.sum_cons] at hbig
        omega

theorem filter_ne_append_self (files : List String) (x : String) (h : x ∉ files) :
    (files ++ [x]).filter (fun q => q ≠ x) = files := by
  rw [List.filter_append]
  have h1 : [x].filter (fun q => decide (q ≠ x)) = [] := by simp
  have h2 : files.filter (fun q => decide (q ≠ x)) = files := by
    rw [List.filter_eq_self]
    intro a ha
    simp only [ne_eq, decide_eq_true_eq]
    exact fun he => h (he ▸ ha)
  rw [h1, h2, List.append_nil]

/-- C9: an authorized multipart upload of a file whose streamed bytes
exceed the configured maximum size is answered with status 413, and no
partial file remains on disk — either the declared content length is
already over the limit (nothing was written), or the mid-stream check
aborts the write and the `finally` block unlinks the partial target
file. -/
theorem oversized_upload_rejected (cfgToken : Option String) (maxSize : Nat)
    (req : UploadRequest) (storedName : String) (files : List String) (fn : String)
    (hauth : is_upload_authorized cfgToken req.auth = true)
    (hmp : req.contentTypeMultipart = true)
    (hfn : req.fieldFilename = some fn) (hfn0 : fn ≠ "")
    (hname : invalidUploadName
      (if posixName fn = "" then "upload" else posixName fn) = false)
    (hfresh : storedName ∉ files)
    (hchunks : 0 ∉ req.chunks)
    (hbig : req.chunks.sum > maxSize) :
    (handle_upload cfgToken maxSize req storedName files).1 = UploadResp.err 413
    ∧ (handle_upload cfgToken maxSize req storedName files).2 = files
    ∧ storedName ∉ (handle_upload cfgToken maxSize req storedName files).2 := by
  have hstream : streamChunks maxSize req.chunks 0 = none :=
    streamChunks_exceeds maxSize req.chunks 0 hchunks (Nat.zero_le _) (by omega)
  unfold handle_upload
  rw [hauth, hmp, hfn]
  by_cases hd : (match req.contentLength with
                 | some l => decide (l > maxSize)
                 | none => false) = true
  · rw [if_pos hd]
    exact ⟨by simp, by simp, by simpa using hfresh⟩
  · rw [if_neg hd]
    simp only [Bool.not_true, Bool.false_eq_true, if_false]
    rw [if_neg hfn0, if_neg (by simp [hname]), hstream]
    refine ⟨rfl, filter_ne_append_self files storedName hfresh, ?_⟩
    rw [filter_ne_append_self files storedName hfresh]
    exact hfresh

/-- Witness for the C9 theorem: a 13-byte upload against a 10-byte limit,
with no declared content length. -/
theorem oversized_upload_rejected_witness :
    (handle_upload none 10 ⟨⟨"", "", ""⟩, true, none, some "a.bin", [6, 7]⟩
        "u-a.bin" []).1 = UploadResp.err 413
    ∧ (handle_upload none 10 ⟨⟨"", "", ""⟩, true, none, some "a.bin", [6, 7]⟩
        "u-a.bin" []).2 = []
    ∧ "u-a.bin" ∉ (handle_upload none 10
        ⟨⟨"", "", ""⟩, true, none, some "a.bin", [6, 7]⟩ "u-a.bin" []).2 :=
  oversized_upload_rejected none 10
    ⟨⟨"", "", ""⟩, true, none, some "a.bin", [6, 7]⟩ "u-a.bin" [] "a.bin"
    (by decide) (by decide) (by decide) (by decide) (by decide) (by decide)
    (by decide) (by decide)

theorem handle_upload_ne_401 (cfgToken : Option String) (maxSize : Nat)
    (req : UploadRequest) (storedName : String) (files : List String)
    (h : is_upload_authorized cfgToken req.auth = true) :
    (handle_upload cfgToken maxSize req storedName files).1 ≠ UploadResp.err 401 := by
  unfold handle_upload
  rw [h]
  simp only [Bool.not_true, Bool.false_eq_true, if_false]
  repeat' split
  all_goals simp

/-- C10: with `UPLOAD_TOKEN` unset/non-string or blank (empty or
whitespace-only), every request is authorized, so `POST /upload` never
answers 401 in that configuration; with a nonempty secret, a request is
authorized exactly when the caller-supplied token — bearer `Authorization`
header first, then `X-Upload-Token` header, then the `token` query
parameter — equals the stripped secret. -/
theorem upload_auth_policy (cfgToken : Option String) (r : AuthInputs)
    (secret : String) (maxSize : Nat) (req : UploadRequest)
    (storedName : String) (files : List String) :
    ((cfgToken = none ∨ ∃ raw, cfgToken = some raw ∧ pyStrip raw.data = []) →
        is_upload_authorized cfgToken r = true)
    ∧ ((cfgToken = none ∨ ∃ raw, cfgToken = some raw ∧ pyStrip raw.data = []) →
        (handle_upload cfgToken maxSize req storedName files).1
          ≠ UploadResp.err 401)
    ∧ (pyStrip secret.data ≠ [] →
        (is_upload_authorized (some secret) r = true
          ↔ extractUploadToken r = pyStrip secret.data)) := by
  have hblank : (cfgToken = none ∨ ∃ raw, cfgToken = some raw ∧ pyStrip raw.data = []) →
      ∀ q : AuthInputs, is_upload_authorized cfgToken q = true := by
    rintro (hnone | ⟨raw, hsome, hstrip⟩) q
    · rw [hnone]
      rfl
    · rw [hsome]
      unfold is_upload_authorized
      dsimp only
      rw [hstrip]
      rfl
  refine ⟨fun h => hblank h r, fun h => ?_, fun hne => ?_⟩
  · exact handle_upload_ne_401 cfgToken maxSize req storedName files
      (hblank h req.auth)
  · unfold is_upload_authorized
    dsimp only
    rw [if_neg (by
      cases h : pyStrip secret.data with
      | nil => exact absurd h hne
      | cons a l => simp)]
    simp only [beq_iff_eq]

/-- Witness for the C10 theorem: a whitespace-only secret authorizes a
tokenless request and precludes 401; a configured secret `s3cret` accepts
exactly a matching bearer token. -/
theorem upload_auth_policy_witness :
    is_upload_authorized (some "   ") ⟨"", "", ""⟩ = true
    ∧ (handle_upload (some "   ") 10
        ⟨⟨"", "", ""⟩, true, none, some "a.bin", [1]⟩ "u" []).1
        ≠ UploadResp.err 401
    ∧ (is_upload_authorized (some "s3cret") ⟨"Bearer s3cret", "", ""⟩ = true
        ↔ extractUploadToken ⟨"Bearer s3cret", "", ""⟩ = pyStrip "s3cret".data) :=
  ⟨(upload_auth_policy (some "   ") ⟨"", "", ""⟩ "s3cret" 10
      ⟨⟨"", "", ""⟩, true, none, some "a.bin", [1]⟩ "u" []).1
      (Or.inr ⟨"   ", rfl, by decide⟩),
   (upload_auth_policy (some "   ") ⟨"", "", ""⟩ "s3cret" 10
      ⟨⟨"", "", ""⟩, true, none, some "a.bin", [1]⟩ "u" []).2.1
      (Or.inr ⟨"   ", rfl, by decide⟩),
   (upload_auth_policy (some "   ") ⟨"Bearer s3cret", "", ""⟩ "s3cret" 10
      ⟨⟨"", "", ""⟩, true, none, some "a.bin", [1]⟩ "u" []).2.2
      (by decide)⟩

/-! ## Theorems for the URL classifier -/

theorem lStartsWith_nil (s : List Char) : lStartsWith s [] = true := by
  cases s <;> rfl

theorem lStartsWith_comparable (s p q : List Char)
    (hp : lStartsWith s p = true) (hq : lStartsWith s q = true) :
    lStartsWith p q = true ∨ lStartsWith q p = true := by
  induction s generalizing p q with
  | nil =>
      cases p with
      | nil => right; exact lStartsWith_nil q
      | cons b bs => simp [lStartsWith] at hp
  | cons a as ih =>
      cases p with
      | nil => right; exact lStartsWith_nil q
      | cons b bs =>
          cases q with
          | nil => left; exact lStartsWith_nil (b :: bs)
          | cons c cs =>
              simp only [lStartsWith, Bool.and_eq_true, beq_iff_eq] at hp hq
              obtain ⟨hab, hp'⟩ := hp
              obtain ⟨hac, hq'⟩ := hq
              subst hab
              subst hac
              rcases ih bs cs hp' hq' with h | h
              · left
                simp [lStartsWith, h]
              · right
                simp [lStartsWith, h]

theorem qobuz_youtube_disjoint :
    ∀ p ∈ URLParser.qobuzPats, ∀ q ∈ URLParser.youtubePats,
      lStartsWith (lowerL p.data) (lowerL q.data) = false
      ∧ lStartsWith (lowerL q.data) (lowerL p.data) = false := by decide

theorem qobuz_spotify_disjoint :
    ∀ p ∈ URLParser.qobuzPats, ∀ q ∈ URLParser.spotifyPats,
      lStartsWith (lowerL p.data) (lowerL q.data) = false
      ∧ lStartsWith (lowerL q.data) (lowerL p.data) = false := by decide

theorem youtube_spotify_disjoint :
    ∀ p ∈ URLParser.youtubePats, ∀ q ∈ URLParser.spotifyPats,
      lStartsWith (lowerL p.data) (lowerL q.data) = false
      ∧ lStartsWith (lowerL q.data) (lowerL p.data) = false := by decide

theorem patterns_disjoint_aux (url : String) (ps qs : List String)
    (hcross : ∀ p ∈ ps, ∀ q ∈ qs,
      lStartsWith (lowerL p.data) (lowerL q.data) = false
      ∧ lStartsWith (lowerL q.data) (lowerL p.data) = false)
    (hp : ps.any (URLParser.patMatches url) = true)
    (hq : qs.any (URLParser.patMatches url) = true) : False := by
  simp only [List.any_eq_true] at hp hq
  obtain ⟨p, hpm, hps⟩ := hp
  obtain ⟨q, hqm, hqs⟩ := hq
  unfold URLParser.patMatches at hps hqs
  rcases lStartsWith_comparable _ _ _ hps hqs with h | h
  · rw [(hcross p hpm q hqm).1] at h
    exact Bool.false_ne_true h
  · rw [(hcross p hpm q hqm).2] at h
    exact Bool.false_ne_true h

theorem serviceMatches_disjoint (url : String) (s1 s2 : ServiceType)
    (hne : s1 ≠ s2)
    (h1 : URLParser.serviceMatches s1 url = true)
    (h2 : URLParser.serviceMatches s2 url = true) : False := by
  unfold URLParser.serviceMatches URLParser.PATTERNS at h1 h2
  cases s1 <;> cases s2 <;>
    first
      | exact hne rfl
      | (simp at h1; done)
      | (simp at h2; done)
      | exact patterns_disjoint_aux url _ _ qobuz_youtube_disjoint h1 h2
      | exact patterns_disjoint_aux url _ _ qobuz_youtube_disjoint h2 h1
      | exact patterns_disjoint_aux url _ _ qobuz_spotify_disjoint h1 h2
      | exact patterns_disjoint_aux url _ _ qobuz_spotify_disjoint h2 h1
      | exact patterns_disjoint_aux url _ _ youtube_spotify_disjoint h1 h2
      | exact patterns_disjoint_aux url _ _ youtube_spotify_disjoint h2 h1

/-- C8: `URLParser.parse` is a total function on strings (it is a Lean
function, hence deterministic and exception-free): any url matched by some
pattern of a service is classified as that service, any url matched by no
pattern is classified UNKNOWN, and no url is matched by the patterns of
two distinct services. -/
theorem parse_classifies (url : String) :
    (∀ svc, svc ≠ ServiceType.UNKNOWN →
        URLParser.serviceMatches svc url = true → URLParser.parse url = svc)
    ∧ ((∀ svc, URLParser.serviceMatches svc url = false) →
        URLParser.parse url = ServiceType.UNKNOWN)
    ∧ (∀ s1 s2, s1 ≠ s2 →
        ¬(URLParser.serviceMatches s1 url = true
          ∧ URLParser.serviceMatches s2 url = true)) := by
  refine ⟨?_, ?_, ?_⟩
  · intro svc hsvc hmatch
    cases svc with
    | QOBUZ =>
        unfold URLParser.parse
        rw [if_pos hmatch]
    | YOUTUBE =>
        have hq : ¬URLParser.serviceMatches ServiceType.QOBUZ url = true :=
          fun h => serviceMatches_disjoint url _ _ (by decide) h hmatch
        unfold URLParser.parse
        rw [if_neg hq, if_pos hmatch]
    | SPOTIFY =>
        have hq : ¬URLParser.serviceMatches ServiceType.QOBUZ url = true :=
          fun h => serviceMatches_disjoint url _ _ (by decide) h hmatch
        have hy : ¬URLParser.serviceMatches ServiceType.YOUTUBE url = true :=
          fun h => serviceMatches_disjoint url _ _ (by decide) h hmatch
        unfold URLParser.parse
        rw [if_neg hq, if_neg hy, if_pos hmatch]
    | UNKNOWN => exact absurd rfl hsvc
  · intro h
    unfold URLParser.parse
    rw [if_neg (by simp [h ServiceType.QOBUZ]),
        if_neg (by simp [h ServiceType.YOUTUBE]),
        if_neg (by simp [h ServiceType.SPOTIFY])]
  · rintro s1 s2 hne ⟨h1, h2⟩
    exact serviceMatches_disjoint url s1 s2 hne h1 h2

/-- Witness for the C8 theorem: a YouTube url is classified YOUTUBE, a
non-matching url is classified UNKNOWN, and the concrete url does not
match both QOBUZ and YOUTUBE patterns. -/
theorem parse_classifies_witness :
    URLParser.parse "https://youtu.be/abc" = ServiceType.YOUTUBE
    ∧ URLParser.parse "ftp://example.com/" = ServiceType.UNKNOWN
    ∧ ¬(URLParser.serviceMatches ServiceType.QOBUZ "https://youtu.be/abc" = true
        ∧ URLParser.serviceMatches ServiceType.YOUTUBE "https://youtu.be/abc" = true) :=
  ⟨(parse_classifies "https://youtu.be/abc").1 ServiceType.YOUTUBE
      (by decide) (by decide),
   (parse_classifies "ftp://example.com/").2.1
      (by intro svc; cases svc <;> decide),
   (parse_classifies "https://youtu.be/abc").2.2 ServiceType.QOBUZ
      ServiceType.YOUTUBE (by decide)⟩
